import Mathlib

/-!
Verification of GitMiner v3 core behaviour: a shallow embedding of
`gitminer/pattern_analyzer.py` and `gitminer/github_client.py` together
with theorems settling the specification's claims about them.

Text is modelled as `List Char`; Python's `str.upper`, `str.strip`,
`str.lstrip` and the two regexes used by the analyzer are embedded
explicitly.  The GitHub HTTP environment is modelled as a scripted list
of responses consumed one per request.
-/

namespace GitMiner

/-- Python whitespace (`str.isspace` / regex `\s`) restricted to ASCII. -/
def isPySpace (c : Char) : Bool :=
  c = ' ' || c = '\t' || c = '\n' || c = '\r' || c = '\x0b' || c = '\x0c'

/-- Python `str.lstrip()`: drop leading whitespace. -/
def pyLStrip (s : List Char) : List Char := s.dropWhile isPySpace

/-- Python `str.strip()`: drop leading and trailing whitespace. -/
def pyStrip (s : List Char) : List Char :=
  ((s.dropWhile isPySpace).reverse.dropWhile isPySpace).reverse

/-- Python `str.upper()` on ASCII text. -/
def pyUpper (s : List Char) : List Char := s.map Char.toUpper

/-- Python's substring test `needle in hay`. -/
def listContains (needle : List Char) : List Char → Bool
  | [] => needle.isEmpty
  | c :: t => needle.isPrefixOf (c :: t) || listContains needle t

/-- The HIGH indicator list of `PatternAnalyzer.classify_severity`. -/
def high_indicators : List (List Char) :=
  ["PRIVATE".toList, "SECRET".toList, "AWS".toList, "TOKEN".toList,
   "SSH_PRIVATE_KEY".toList, "PRIVATE_KEY".toList, "CERTIFICATE".toList]

/-- The MEDIUM indicator list of `PatternAnalyzer.classify_severity`. -/
def medium_indicators : List (List Char) :=
  ["PASSWORD".toList, "PASS".toList, "JWT".toList, "API".toList,
   "GITHUB_TOKEN".toList, "ACCESS_KEY".toList, "OAUTH".toList]

/-- `PatternAnalyzer.classify_severity`.  The argument is `Option` because
Python callers may pass `None`; the code coerces with `(label or "")`. -/
def classify_severity (label : Option (List Char)) : String :=
  let label_upper := pyUpper (label.getD [])
  if high_indicators.any (fun k => listContains k label_upper) then "HIGH"
  else if medium_indicators.any (fun k => listContains k label_upper) then "MEDIUM"
  else "LOW"

end GitMiner

namespace GitMiner

/-- Characters of the separator class `[\s:=]` in
`_extract_parameter_value`'s assignment regex. -/
def isSepChar (c : Char) : Bool := isPySpace c || c = ':' || c = '='

/-- Quote characters `["\']` in the assignment regex. -/
def isQuoteChar (c : Char) : Bool := c = '"' || c = '\''

/-- Characters admissible in a captured value: the class `[^"\'\s;,#]`. -/
def isValueChar (c : Char) : Bool :=
  !(isQuoteChar c || isPySpace c || c = ';' || c = ',' || c = '#')

/-- One backtracking attempt of the regex
`^[\s:=]+["\']?([^"\'\s;,#]+)["\']?` with the separator run `[\s:=]+`
fixed to consume exactly `k` characters of `s`: optionally consume one
quote, then capture a maximal nonempty run of value characters. -/
def tryMatchAt (s : List Char) (k : Nat) : Option (List Char) :=
  match s.drop k with
  | [] => none
  | c :: t =>
    if isQuoteChar c then
      let v := t.takeWhile isValueChar
      if v.isEmpty then none else some v
    else
      let v := (c :: t).takeWhile isValueChar
      if v.isEmpty then none else some v

/-- Greedy backtracking over the separator-run length: try `k`, then
`k-1`, ..., down to `1` (the `+` quantifier needs at least one). -/
def searchSepRun (s : List Char) : Nat → Option (List Char)
  | 0 => none
  | k + 1 =>
    match tryMatchAt s (k + 1) with
    | some v => some v
    | none => searchSepRun s k

/-- `re.match(r'^[\s:=]+["\']?([^"\'\s;,#]+)["\']?', s)`, returning
`group(1)` when the regex matches. -/
def assignmentMatch (s : List Char) : Option (List Char) :=
  searchSepRun s (s.takeWhile isSepChar).length

/-- `PatternAnalyzer._extract_parameter_value`. -/
def extract_parameter_value (line : List Char) (start_pos : Nat)
    (max_length : Nat := 100) : Option (List Char) :=
  let remaining := pyLStrip (line.drop start_pos)
  if remaining.isEmpty then none
  else
    match assignmentMatch remaining with
    | some value => if value.isEmpty then none else some (value.take max_length)
    | none => none

/-- A compiled regex, abstracted as its `finditer` behaviour: the list of
`(start, end)` spans of the non-overlapping matches found in a line.  The
`re` module is external to the repository, so patterns enter the model as
oracles; `literalFinditer` below instantiates one for literal patterns. -/
def RePattern : Type := List Char → List (Nat × Nat)

/-- `match.group(0)`: the text of the line covered by a match span. -/
def group0 (line : List Char) (span : Nat × Nat) : List Char :=
  (line.drop span.1).take (span.2 - span.1)

/-- `enumerate(lines, start=n)`. -/
def enumFrom (n : Nat) : List α → List (Nat × α)
  | [] => []
  | a :: t => (n, a) :: enumFrom (n + 1) t

/-- A finding tuple `(label, matched_text, context, line_number)` as
produced by `PatternAnalyzer.scan_file`'s helpers. -/
structure Finding where
  label : String
  matched_text : List Char
  context : List Char
  line_number : Nat
  deriving Repr, DecidableEq

/-- The findings `_scan_with_patterns` produces for one registered
pattern: all lines in order, all matches per line in order. -/
def scanPatternOne (pattern_name : String) (pattern : RePattern)
    (lines : List (List Char)) (max_context_length : Nat) : List Finding :=
  (enumFrom 1 lines).flatMap fun p =>
    (pattern p.2).map fun span =>
      { label := pattern_name
        matched_text := group0 p.2 span
        context := (pyStrip p.2).take max_context_length
        line_number := p.1 }

/-- `PatternAnalyzer._scan_with_patterns`: outer loop over registered
patterns, inner loop over lines. -/
def scan_with_patterns (patterns : List (String × RePattern))
    (lines : List (List Char)) (max_context_length : Nat) : List Finding :=
  patterns.flatMap fun q => scanPatternOne q.1 q.2 lines max_context_length

/-- The findings `_scan_with_labels` produces for one line: every label
pattern, every match; `matched_text` is extended with the extracted value
when `_extract_parameter_value` returns a truthy (nonempty) string. -/
def scanLabelsLine (compiled_labels : List (RePattern × String))
    (line : List Char) (line_number : Nat) (max_context_length : Nat) :
    List Finding :=
  compiled_labels.flatMap fun q =>
    (q.1 line).map fun span =>
      let matched := group0 line span
      let value := extract_parameter_value line span.2 100
      { label := q.2
        matched_text :=
          match value with
          | some v => if v.isEmpty then matched else matched ++ '=' :: v
          | none => matched
        context := (pyStrip line).take max_context_length
        line_number := line_number }

/-- `PatternAnalyzer._scan_with_labels`: outer loop over lines, inner
loop over the compiled label patterns. -/
def scan_with_labels (compiled_labels : List (RePattern × String))
    (lines : List (List Char)) (max_context_length : Nat) : List Finding :=
  (enumFrom 1 lines).flatMap fun p =>
    scanLabelsLine compiled_labels p.2 p.1 max_context_length

/-- Fuel-driven core of `literalFinditer`: scan the suffix `s` sitting at
absolute position `i`, emitting non-overlapping occurrences of `pat`. -/
def litFindAux (pat : List Char) : Nat → List Char → Nat → List (Nat × Nat)
  | 0, _, _ => []
  | _, [], _ => []
  | fuel + 1, c :: t, i =>
    if pat.isPrefixOf (c :: t) && !pat.isEmpty then
      (i, i + pat.length) :: litFindAux pat fuel ((c :: t).drop pat.length) (i + pat.length)
    else
      litFindAux pat fuel t (i + 1)

/-- `re.finditer` for a literal (regex-metacharacter-free) pattern:
leftmost, non-overlapping spans. -/
def literalFinditer (pat : List Char) : RePattern :=
  fun line => litFindAux pat line.length line 0

end GitMiner

namespace GitMiner

/-- One named entry of a rate-limit snapshot: the `remaining` and `reset`
fields read by `ensure_rate_limit` (missing keys default to 0 via
`.get`, so they are plain fields here). -/
structure RInfo where
  remaining : Int
  reset : Int
  deriving Repr, DecidableEq

/-- The candidate list built by `GitHubClient.ensure_rate_limit`:
`code_search` first when preferred, then `search`, then — only when the
list is still empty — `core`. -/
def candidatesOf (prefer_code_search : Bool)
    (resources : List (String × RInfo)) : List (String × RInfo) :=
  let c1 :=
    if prefer_code_search then
      match resources.lookup "code_search" with
      | some info => [("code_search", info)]
      | none => []
    else []
  let c2 := c1 ++
    (match resources.lookup "search" with
     | some info => [("search", info)]
     | none => [])
  if c2.isEmpty then
    match resources.lookup "core" with
    | some info => [("core", info)]
    | none => []
  else c2

/-- `GitHubClient.ensure_rate_limit`, returning the list of sleep
durations (in seconds) it performs.  `resources = none` models a failed
snapshot fetch; an empty map is also falsy in Python's `if not
resources`.  The Python `for` loop over candidates returns inside its
first iteration on both branches, so only the head candidate matters. -/
def ensure_rate_limit (resources : Option (List (String × RInfo)))
    (needed : Int) (prefer_code_search : Bool) (now : Int) : List Int :=
  match resources with
  | none => [5]
  | some rs =>
    if rs.isEmpty then [5]
    else
      match candidatesOf prefer_code_search rs with
      | [] => []
      | (_, info) :: _ =>
        if info.remaining ≥ needed then []
        else [max 0 (info.reset - now + 1)]

/-- `GitHubClient._handle_rate_limit_error`, returning `some wait` when
the handler sleeps `wait` seconds and returns, and `none` when it raises
`RuntimeError`.  `reset_header` is the `X-RateLimit-Reset` response
header; `snapshot` is the result of the fallback `get_rate_limits()`
call, mapping resource names to their `reset` epochs. -/
def handle_rate_limit_error (reset_header : Option Int)
    (snapshot : Option (List (String × Int))) (now : Int) : Option Int :=
  match reset_header with
  | some reset => some (max 10 (reset - now + 1))
  | none =>
    match snapshot.bind fun rs => rs.lookup "search" with
    | some reset => some (max 10 (reset - now + 1))
    | none => none

/-- One scripted response of the HTTP environment to a search request. -/
inductive Attempt (α : Type) where
  | transportError
  | forbidden (reset_header : Option Int) (snapshot : Option (List (String × Int))) (now : Int)
  | httpError (status : Nat)
  | success (items : List α)
  deriving Repr, DecidableEq

/-- The observable outcome of a `search_code` call: the returned results
and the ordered trace of page numbers requested, or the raised
`RuntimeError`, or exhaustion of the scripted responses (a model
artifact: the real environment always answers). -/
inductive Outcome (α : Type) where
  | ok (results : List α) (requested_pages : List Nat)
  | runtimeError (requested_pages : List Nat)
  | outOfScript (results : List α) (requested_pages : List Nat)
  deriving Repr, DecidableEq

/-- The results carried by an outcome (empty when an error was raised). -/
def Outcome.results : Outcome α → List α
  | .ok rs _ => rs
  | .runtimeError _ => []
  | .outOfScript rs _ => rs

/-- The page-request trace carried by an outcome. -/
def Outcome.requests : Outcome α → List Nat
  | .ok _ t => t
  | .runtimeError t => t
  | .outOfScript _ t => t

/-- The `while len(results) < max_results` loop of
`GitHubClient.search_code`.  Each iteration consumes one scripted
response; 403 handling either raises or retries the same page number;
a transport exception breaks out of the loop; a non-200 non-403 status
raises; a successful page is appended up to the cap, an empty or short
page ends the sequence, and otherwise the page counter advances. -/
def searchCodeGo (per_page max_results : Nat) :
    List (Attempt α) → List α → Nat → List Nat → Outcome α
  | [], results, _, reqs =>
    if max_results ≤ results.length then .ok results reqs
    else .outOfScript results reqs
  | a :: rest, results, page, reqs =>
    if max_results ≤ results.length then .ok results reqs
    else
      match a with
      | .transportError => .ok results (reqs ++ [page])
      | .forbidden hdr snap now =>
        match handle_rate_limit_error hdr snap now with
        | some _ => searchCodeGo per_page max_results rest results page (reqs ++ [page])
        | none => .runtimeError (reqs ++ [page])
      | .httpError _ => .runtimeError (reqs ++ [page])
      | .success items =>
        if items.isEmpty then .ok results (reqs ++ [page])
        else
          let newResults := results ++ items.take (max_results - results.length)
          if items.length < per_page then .ok newResults (reqs ++ [page])
          else searchCodeGo per_page max_results rest newResults (page + 1) (reqs ++ [page])

/-- `GitHubClient.search_code` over a scripted response list, starting
at page 1 with no results.  Per-item postprocessing (snippet extraction,
dict construction) is a one-to-one map on items and is elided, as the
claims concern counts, order and control flow only. -/
def search_code (attempts : List (Attempt α))
    (per_page : Nat := 30) (max_results : Nat := 200) : Outcome α :=
  searchCodeGo per_page max_results attempts [] 1 []

end GitMiner

namespace GitMiner

theorem listContains_iff (needle : List Char) :
    ∀ hay : List Char, listContains needle hay = true ↔ needle <:+: hay := by
  intro hay
  induction hay with
  | nil =>
    simp [listContains, List.isEmpty_iff]
  | cons c t ih =>
    simp [listContains, List.infix_cons_iff, ih, List.isPrefixOf_iff_prefix]

theorem tryMatchAt_some_ne_nil {s : List Char} {k : Nat} {v : List Char}
    (h : tryMatchAt s k = some v) : v ≠ [] := by
  unfold tryMatchAt at h
  split at h
  · exact absurd h (by simp)
  · split at h
    · dsimp only at h
      split at h
      · exact absurd h (by simp)
      · rename_i hne
        cases h
        simpa [List.isEmpty_iff] using hne
    · dsimp only at h
      split at h
      · exact absurd h (by simp)
      · rename_i hne
        cases h
        simpa [List.isEmpty_iff] using hne

theorem extract_some_props {line : List Char} {s : Nat} {v : List Char}
    (h : extract_parameter_value line s 100 = some v) :
    v ≠ [] ∧ v.length ≤ 100 := by
  unfold extract_parameter_value at h
  dsimp only at h
  split at h
  · exact absurd h (by simp)
  · split at h
    · rename_i value hmatch
      split at h
      · exact absurd h (by simp)
      · rename_i hne
        cases h
        refine ⟨?_, by simp [List.length_take]⟩
        simp only [Bool.not_eq_true, List.isEmpty_eq_false] at hne
        simp [List.take_eq_nil_iff, hne]
    · exact absurd h (by simp)

end GitMiner

namespace GitMiner

/-- C2: `classify_severity` is a pure total function of the label text.
It uppercases the label; if any HIGH keyword occurs as a substring the
result is HIGH; else if any MEDIUM keyword occurs the result is MEDIUM;
else LOW.  The HIGH test precedes the MEDIUM test, so a label such as
`AWS_SECRET_PASSWORD`, which matches both sets, classifies HIGH. -/
theorem claim2_classify_severity (label : Option (List Char)) :
    ((∃ k ∈ high_indicators, k <:+: pyUpper (label.getD [])) →
      classify_severity label = "HIGH") ∧
    ((¬ ∃ k ∈ high_indicators, k <:+: pyUpper (label.getD [])) →
      (∃ k ∈ medium_indicators, k <:+: pyUpper (label.getD [])) →
      classify_severity label = "MEDIUM") ∧
    ((¬ ∃ k ∈ high_indicators, k <:+: pyUpper (label.getD [])) →
      (¬ ∃ k ∈ medium_indicators, k <:+: pyUpper (label.getD [])) →
      classify_severity label = "LOW") ∧
    classify_severity (some "AWS_SECRET_PASSWORD".toList) = "HIGH" := by
  have hbridge : ∀ (ks : List (List Char)) (u : List Char),
      (ks.any fun k => listContains k u) = true ↔ ∃ k ∈ ks, k <:+: u := by
    intro ks u
    simp [List.any_eq_true, listContains_iff]
  refine ⟨?_, ?_, ?_, by decide⟩
  · intro h
    unfold classify_severity
    rw [if_pos ((hbridge _ _).mpr h)]
  · intro hn hm
    unfold classify_severity
    rw [if_neg, if_pos ((hbridge _ _).mpr hm)]
    simp only [hbridge]
    exact hn
  · intro hn hm
    unfold classify_severity
    rw [if_neg, if_neg]
    · simp only [hbridge]; exact hm
    · simp only [hbridge]; exact hn

theorem claim2_witness :
    (∃ k ∈ high_indicators,
        k <:+: pyUpper ((some "AWS_SECRET_PASSWORD".toList).getD [])) ∧
    classify_severity (some "AWS_SECRET_PASSWORD".toList) = "HIGH" :=
  ⟨⟨"AWS".toList, by decide, by decide⟩,
    (claim2_classify_severity (some "AWS_SECRET_PASSWORD".toList)).1
      ⟨"AWS".toList, by decide, by decide⟩⟩

/-- C10: `classify_severity` never fails on a missing label: `None` is
coerced to the empty string by `(label or "")`, and both `None` and the
empty string classify LOW.  Totality holds by construction. -/
theorem claim10_classify_severity_missing_label :
    classify_severity none = "LOW" ∧ classify_severity (some []) = "LOW" :=
  ⟨rfl, rfl⟩

end GitMiner

namespace GitMiner

/-- C9 counterexample: on line `keyvalue` with the label match ending at
position 3, non-whitespace text (`value`) remains after the match end,
yet no value is extracted — the assignment regex `[\s:=]+...` demands at
least one separator character, so zero separators defeat extraction. -/
theorem claim9_counterexample :
    pyLStrip ("keyvalue".toList.drop 3) ≠ [] ∧
    extract_parameter_value "keyvalue".toList 3 100 = none :=
  ⟨by decide, by decide⟩

/-- C9 (amended): value extraction after a label match requires the run
of whitespace/`:`/`=` separator characters to be nonempty — the regex
quantifier is `+`, not `*`.  When the lstripped remainder begins with no
separator character, no value is extracted; when the (nonempty) greedy
separator run is followed by an optional quote and a nonempty maximal
run of value characters, that run is extracted and truncated to the
length cap; and a successfully extracted value is always nonempty and at
most 100 characters. -/
theorem claim9_extract_separator_required :
    (∀ (line : List Char) (start ml : Nat),
       (pyLStrip (line.drop start)).takeWhile isSepChar = [] →
       extract_parameter_value line start ml = none) ∧
    (∀ (line : List Char) (start ml : Nat) (v : List Char),
       tryMatchAt (pyLStrip (line.drop start))
           ((pyLStrip (line.drop start)).takeWhile isSepChar).length = some v →
       (pyLStrip (line.drop start)).takeWhile isSepChar ≠ [] →
       extract_parameter_value line start ml = some (v.take ml)) ∧
    (∀ (line : List Char) (start : Nat) (v : List Char),
       extract_parameter_value line start 100 = some v →
       v ≠ [] ∧ v.length ≤ 100) ∧
    extract_parameter_value "key:value".toList 3 100 = some "value".toList := by
  refine ⟨?_, ?_, fun _ _ _ h => extract_some_props h, by decide⟩
  · intro line start ml h
    unfold extract_parameter_value
    dsimp only
    split
    · rfl
    · simp [assignmentMatch, h, searchSepRun]
  · intro line start ml v htry hne
    have hrem : pyLStrip (line.drop start) ≠ [] := by
      intro he
      rw [he, List.takeWhile_nil] at hne
      exact hne rfl
    unfold extract_parameter_value
    dsimp only
    rw [if_neg (by simpa [List.isEmpty_iff] using hrem)]
    obtain ⟨n, hn⟩ : ∃ n,
        ((pyLStrip (line.drop start)).takeWhile isSepChar).length = n + 1 := by
      cases hl : (pyLStrip (line.drop start)).takeWhile isSepChar with
      | nil => exact absurd hl hne
      | cons a t => exact ⟨t.length, by simp [hl]⟩
    rw [hn] at htry
    unfold assignmentMatch
    rw [hn, searchSepRun, htry]
    dsimp only
    rw [if_neg (by simp only [List.isEmpty_iff]; exact tryMatchAt_some_ne_nil htry)]

theorem claim9_amended_witness :
    tryMatchAt (pyLStrip ("key:value".toList.drop 3))
        ((pyLStrip ("key:value".toList.drop 3)).takeWhile isSepChar).length =
      some "value".toList ∧
    extract_parameter_value "key:value".toList 3 100 = some ("value".toList.take 100) :=
  ⟨by decide,
    claim9_extract_separator_required.2.1 "key:value".toList 3 100 "value".toList
      (by decide) (by decide)⟩

end GitMiner

namespace GitMiner

/-- C3: every label-pass finding's `matched_text` is
`<match>=<value>` when value extraction succeeds (the value nonempty and
truncated to 100 characters) and `<match>` alone when it fails; and the
label match `db_password` on the line `db_password = "hunter2"` yields
`matched_text` `db_password=hunter2`, the surrounding quotes stripped. -/
theorem claim3_label_matched_text :
    (∀ (cls : List (RePattern × String)) (lines : List (List Char))
       (mcl : Nat) (f : Finding), f ∈ scan_with_labels cls lines mcl →
       ∃ pat label line ln span,
         (pat, label) ∈ cls ∧ (ln, line) ∈ enumFrom 1 lines ∧
         span ∈ pat line ∧ f.label = label ∧ f.line_number = ln ∧
         ((∃ v, extract_parameter_value line span.2 100 = some v ∧ v ≠ [] ∧
             v.length ≤ 100 ∧
             f.matched_text = group0 line span ++ '=' :: v) ∨
          (extract_parameter_value line span.2 100 = none ∧
             f.matched_text = group0 line span))) ∧
    scan_with_labels [(literalFinditer "db_password".toList, "db_password")]
        ["db_password = \"hunter2\"".toList] 500 =
      [{ label := "db_password",
         matched_text := "db_password=hunter2".toList,
         context := "db_password = \"hunter2\"".toList,
         line_number := 1 }] := by
  refine ⟨?_, by decide⟩
  intro cls lines mcl f hf
  unfold scan_with_labels at hf
  rw [List.mem_flatMap] at hf
  obtain ⟨p, hp, hf⟩ := hf
  unfold scanLabelsLine at hf
  rw [List.mem_flatMap] at hf
  obtain ⟨q, hq, hf⟩ := hf
  rw [List.mem_map] at hf
  obtain ⟨span, hspan, hf⟩ := hf
  subst hf
  refine ⟨q.1, q.2, p.2, p.1, span, by simpa using hq, by simpa using hp,
    hspan, rfl, rfl, ?_⟩
  dsimp only
  cases hv : extract_parameter_value p.2 span.2 100 with
  | none =>
    right
    exact ⟨rfl, rfl⟩
  | some v =>
    left
    obtain ⟨hne, hlen⟩ := extract_some_props hv
    refine ⟨v, rfl, hne, hlen, ?_⟩
    dsimp only
    rw [if_neg (by simp only [List.isEmpty_iff]; exact hne)]

theorem claim3_witness :
    ∃ pat label line ln span,
      (pat, label) ∈ [(literalFinditer "db_password".toList, "db_password")] ∧
      (ln, line) ∈ enumFrom 1 ["db_password = \"hunter2\"".toList] ∧
      span ∈ pat line ∧ "db_password" = label ∧ 1 = ln ∧
      ((∃ v, extract_parameter_value line span.2 100 = some v ∧ v ≠ [] ∧
          v.length ≤ 100 ∧
          "db_password=hunter2".toList = group0 line span ++ '=' :: v) ∨
       (extract_parameter_value line span.2 100 = none ∧
          "db_password=hunter2".toList = group0 line span)) :=
  claim3_label_matched_text.1
    [(literalFinditer "db_password".toList, "db_password")]
    ["db_password = \"hunter2\"".toList] 500
    { label := "db_password",
      matched_text := "db_password=hunter2".toList,
      context := "db_password = \"hunter2\"".toList,
      line_number := 1 }
    (by decide)

end GitMiner

namespace GitMiner

theorem mem_enumFrom_fst_le {p : Nat × α} :
    ∀ {l : List α} {n : Nat}, p ∈ enumFrom n l → n ≤ p.1 := by
  intro l
  induction l with
  | nil => intro n h; simp [enumFrom] at h
  | cons a t ih =>
    intro n h
    rw [enumFrom] at h
    rcases List.mem_cons.mp h with h | h
    · subst h; exact Nat.le_refl n
    · exact Nat.le_of_succ_le (ih h)

theorem enumFrom_pairwise (n : Nat) (l : List α) :
    List.Pairwise (fun p q : Nat × α => p.1 < q.1) (enumFrom n l) := by
  induction l generalizing n with
  | nil => exact List.Pairwise.nil
  | cons a t ih =>
    rw [enumFrom]
    refine List.Pairwise.cons ?_ (ih (n + 1))
    intro q hq
    exact Nat.lt_of_lt_of_le (Nat.lt_succ_self n) (mem_enumFrom_fst_le hq)

theorem pairwise_flatMap_line_number {n : Nat} {lines : List (List Char)}
    {f : Nat × List Char → List Finding}
    (hf : ∀ p ∈ enumFrom n lines, ∀ x ∈ f p, x.line_number = p.1) :
    List.Pairwise (fun a b : Finding => a.line_number ≤ b.line_number)
      ((enumFrom n lines).flatMap f) := by
  rw [List.pairwise_flatMap]
  constructor
  · intro p hp
    apply List.pairwise_of_forall_mem_list
    intro a ha b hb
    rw [hf p hp a ha, hf p hp b hb]
  · refine List.Pairwise.imp_of_mem ?_ (enumFrom_pairwise n lines)
    intro p q hp hq hpq x hx y hy
    rw [hf p hp x hx, hf q hq y hy]
    exact Nat.le_of_lt hpq

/-- C8 counterexample: with two registered generic patterns, pattern `A`
matching only line 2 and pattern `B` matching only line 1,
`_scan_with_patterns` emits the findings in the order `[2, 1]` — the
generic pass as a whole is NOT ordered by ascending input line number,
because its outer loop iterates over patterns, not lines. -/
theorem claim8_counterexample :
    (scan_with_patterns
        [("A", literalFinditer "a".toList), ("B", literalFinditer "b".toList)]
        ["b".toList, "a".toList] 500).map Finding.line_number = [2, 1] ∧
    ¬ List.Pairwise (fun a b : Finding => a.line_number ≤ b.line_number)
        (scan_with_patterns
          [("A", literalFinditer "a".toList), ("B", literalFinditer "b".toList)]
          ["b".toList, "a".toList] 500) := by
  constructor
  · decide
  · decide

/-- C8 (amended): input line order is preserved per pattern, not across
patterns.  Within the sub-scan of each single registered pattern the
generic-pass findings have ascending line numbers; the label pass, whose
outer loop is over lines, is globally ascending; and the generic pass is
exactly the concatenation of the per-pattern sub-scans in registry
order. -/
theorem claim8_scan_order :
    (∀ (name : String) (pattern : RePattern) (lines : List (List Char))
       (mcl : Nat),
       List.Pairwise (fun a b : Finding => a.line_number ≤ b.line_number)
         (scanPatternOne name pattern lines mcl)) ∧
    (∀ (cls : List (RePattern × String)) (lines : List (List Char))
       (mcl : Nat),
       List.Pairwise (fun a b : Finding => a.line_number ≤ b.line_number)
         (scan_with_labels cls lines mcl)) ∧
    (∀ (pats : List (String × RePattern)) (lines : List (List Char))
       (mcl : Nat),
       scan_with_patterns pats lines mcl =
         pats.flatMap fun q => scanPatternOne q.1 q.2 lines mcl) := by
  refine ⟨?_, ?_, fun _ _ _ => rfl⟩
  · intro name pattern lines mcl
    unfold scanPatternOne
    apply pairwise_flatMap_line_number
    intro p hp x hx
    rw [List.mem_map] at hx
    obtain ⟨span, _, hx⟩ := hx
    subst hx
    rfl
  · intro cls lines mcl
    unfold scan_with_labels
    apply pairwise_flatMap_line_number
    intro p hp x hx
    unfold scanLabelsLine at hx
    rw [List.mem_flatMap] at hx
    obtain ⟨q, _, hx⟩ := hx
    rw [List.mem_map] at hx
    obtain ⟨span, _, hx⟩ := hx
    subst hx
    rfl

end GitMiner

namespace GitMiner

/-- C5: `ensure_rate_limit` is a stale-read, single-shot gate.  When the
quota snapshot is unavailable (fetch failed, or the resource map is
empty and hence falsy) it sleeps exactly once for 5 seconds and returns;
otherwise, for the first candidate resource, it returns immediately with
no sleep when `remaining ≥ needed`, and else sleeps exactly
`max(0, resetAt − now + 1)` once and returns unconditionally with no
re-check.  Concretely, `code_search` with `remaining = 0` and
`reset = now + 12` (now = 100) produces the single sleep `[13]`. -/
theorem claim5_ensure_rate_limit (needed now : Int) (prefer : Bool) :
    ensure_rate_limit none needed prefer now = [5] ∧
    ensure_rate_limit (some []) needed prefer now = [5] ∧
    (∀ (rs : List (String × RInfo)) (name : String) (info : RInfo)
       (tail : List (String × RInfo)),
       rs ≠ [] →
       candidatesOf prefer rs = (name, info) :: tail →
       (needed ≤ info.remaining →
          ensure_rate_limit (some rs) needed prefer now = []) ∧
       (info.remaining < needed →
          ensure_rate_limit (some rs) needed prefer now =
            [max 0 (info.reset - now + 1)])) ∧
    ensure_rate_limit (some [("code_search", ⟨0, 112⟩)]) 1 true 100 = [13] := by
  refine ⟨rfl, rfl, ?_, by decide⟩
  intro rs name info tail hne hcand
  constructor
  · intro hrem
    unfold ensure_rate_limit
    dsimp only
    rw [if_neg (by simp only [List.isEmpty_iff]; exact hne), hcand]
    dsimp only
    rw [if_pos hrem]
  · intro hrem
    unfold ensure_rate_limit
    dsimp only
    rw [if_neg (by simp only [List.isEmpty_iff]; exact hne), hcand]
    dsimp only
    rw [if_neg (by omega)]

theorem claim5_witness :
    ensure_rate_limit (some [("code_search", (⟨5, 99⟩ : RInfo))]) 1 true 0 = [] :=
  ((claim5_ensure_rate_limit 1 0 true).2.2.1 [("code_search", ⟨5, 99⟩)]
    "code_search" ⟨5, 99⟩ [] (by decide) (by decide)).1 (by decide)

end GitMiner

namespace GitMiner

theorem searchCodeGo_results_le {α : Type} (P M : Nat) :
    ∀ (attempts : List (Attempt α)) (results : List α) (page : Nat)
      (reqs : List Nat), results.length ≤ M →
      (searchCodeGo P M attempts results page reqs).results.length ≤ M := by
  intro attempts
  induction attempts with
  | nil =>
    intro results page reqs h
    unfold searchCodeGo
    split
    · simpa [Outcome.results] using h
    · simpa [Outcome.results] using h
  | cons a rest ih =>
    intro results page reqs h
    unfold searchCodeGo
    split
    · simpa [Outcome.results] using h
    · rename_i hcap
      cases a with
      | transportError => simpa [Outcome.results] using h
      | forbidden hdr snap now =>
        dsimp only
        split
        · exact ih results page (reqs ++ [page]) h
        · simp [Outcome.results]
      | httpError status => simp [Outcome.results]
      | success items =>
        dsimp only
        split
        · simpa [Outcome.results] using h
        · split
          · rename_i hshort
            have ht := List.length_take_le (M - results.length) items
            simp only [Outcome.results, List.length_append]
            omega
          · refine ih _ (page + 1) (reqs ++ [page]) ?_
            have ht := List.length_take_le (M - results.length) items
            simp only [List.length_append]
            omega

theorem searchCodeGo_short_or_abort {α : Type} (P M : Nat) :
    ∀ (attempts : List (Attempt α)) (results : List α) (page : Nat)
      (reqs : List Nat) (res : List α) (reqs' : List Nat),
      searchCodeGo P M attempts results page reqs = Outcome.ok res reqs' →
      res.length < M →
      (∃ items, Attempt.success items ∈ attempts ∧
         (items = [] ∨ items.length < P)) ∨
      Attempt.transportError ∈ attempts := by
  intro attempts
  induction attempts with
  | nil =>
    intro results page reqs res reqs' heq hres
    unfold searchCodeGo at heq
    split at heq
    · rename_i hcap
      injection heq with h1 h2
      subst h1
      omega
    · exact Outcome.noConfusion heq
  | cons a rest ih =>
    intro results page reqs res reqs' heq hres
    unfold searchCodeGo at heq
    split at heq
    · rename_i hcap
      injection heq with h1 h2
      subst h1
      omega
    · cases a with
      | transportError =>
        exact Or.inr (List.mem_cons_self _ _)
      | forbidden hdr snap now =>
        dsimp only at heq
        split at heq
        · rcases ih _ _ _ _ _ heq hres with h | h
          · obtain ⟨its, hm, hp⟩ := h
            exact Or.inl ⟨its, List.mem_cons_of_mem _ hm, hp⟩
          · exact Or.inr (List.mem_cons_of_mem _ h)
        · exact Outcome.noConfusion heq
      | httpError status =>
        dsimp only at heq
        exact Outcome.noConfusion heq
      | success items =>
        dsimp only at heq
        split at heq
        · rename_i hempty
          refine Or.inl ⟨items, List.mem_cons_self _ _, Or.inl ?_⟩
          simpa [List.isEmpty_iff] using hempty
        · split at heq
          · rename_i hshort
            exact Or.inl ⟨items, List.mem_cons_self _ _, Or.inr hshort⟩
          · rcases ih _ _ _ _ _ heq hres with h | h
            · obtain ⟨its, hm, hp⟩ := h
              exact Or.inl ⟨its, List.mem_cons_of_mem _ hm, hp⟩
            · exact Or.inr (List.mem_cons_of_mem _ h)

/-- C1 counterexample: with perPage = 30 and maxResults = 100, an
upstream that answers page 1 with a full 30-item page and then fails
with a transport exception makes `search_code` return only 30 < 100
items normally — yet no page of the upstream was empty or shorter than
perPage, so "returns fewer than M only if the upstream source is
exhausted first (an empty page or a page shorter than P)" is false. -/
theorem claim1_counterexample :
    search_code (α := Nat)
        [Attempt.success (List.range 30), Attempt.transportError] 30 100 =
      Outcome.ok (List.range 30) [1, 2] ∧
    (List.range 30).length < 100 ∧
    ¬ ∃ items, Attempt.success items ∈
        [Attempt.success (List.range 30), Attempt.transportError] ∧
      (items = [] ∨ items.length < 30) := by
  refine ⟨by decide, by decide, ?_⟩
  rintro ⟨items, hmem, hbad⟩
  rcases List.mem_cons.mp hmem with h | h
  · injection h with h
    subst h
    exact absurd hbad (by decide)
  · rcases List.mem_cons.mp h with h | h
    · exact Attempt.noConfusion h
    · exact absurd h (List.not_mem_nil _)

/-- C1 (amended): for every per-page size P, cap M and scripted
upstream, `search_code` returns at most M items; and whenever the call
returns normally with fewer than M items, either some upstream page was
empty or shorter than P (the source was exhausted before the cap), or
the pagination sequence was aborted by a transport failure, which
returns the partial results normally. -/
theorem claim1_paginate_cap_amended {α : Type} (P M : Nat) :
    (∀ attempts : List (Attempt α),
       (search_code attempts P M).results.length ≤ M) ∧
    (∀ (attempts : List (Attempt α)) (res : List α) (reqs : List Nat),
       search_code attempts P M = Outcome.ok res reqs →
       res.length < M →
       (∃ items, Attempt.success items ∈ attempts ∧
          (items = [] ∨ items.length < P)) ∨
       Attempt.transportError ∈ attempts) := by
  constructor
  · intro attempts
    exact searchCodeGo_results_le P M attempts [] 1 [] (by simp)
  · intro attempts res reqs heq hres
    exact searchCodeGo_short_or_abort P M attempts [] 1 [] res reqs heq hres

theorem claim1_amended_witness :
    (search_code (α := Nat) [Attempt.success [0, 1]] 30 3).results.length ≤ 3 ∧
    ((∃ items, Attempt.success items ∈ [Attempt.success [(0 : Nat), 1]] ∧
        (items = [] ∨ items.length < 30)) ∨
      Attempt.transportError ∈ [Attempt.success [(0 : Nat), 1]]) :=
  ⟨(claim1_paginate_cap_amended 30 3).1 [Attempt.success [0, 1]],
    (claim1_paginate_cap_amended 30 3).2 [Attempt.success [0, 1]] [0, 1] [1]
      (by decide) (by decide)⟩

end GitMiner

namespace GitMiner

/-- C4: a successful page shorter than `per_page` stops pagination right
after being consumed, whatever the remaining script and however far the
cap still is; and in the scenario perPage = 30, maxResults = 100, page 1
returning 30 items and page 2 returning 5, exactly the two page requests
`[1, 2]` are issued and exactly the 35 items are returned — the stop
comes from the short page (35 < 100), not from the cap. -/
theorem claim4_short_page_stops {α : Type} (P M : Nat) :
    (∀ (items : List α) (rest : List (Attempt α)) (results : List α)
       (page : Nat) (reqs : List Nat),
       results.length < M → items ≠ [] → items.length < P →
       searchCodeGo P M (Attempt.success items :: rest) results page reqs =
         Outcome.ok (results ++ items.take (M - results.length))
           (reqs ++ [page])) ∧
    search_code (α := Nat)
        [Attempt.success (List.range 30), Attempt.success (List.range 5)]
        30 100 =
      Outcome.ok (List.range 30 ++ List.range 5) [1, 2] ∧
    (List.range 30 ++ List.range 5).length = 35 := by
  refine ⟨?_, by decide, by decide⟩
  intro items rest results page reqs hcap hne hshort
  unfold searchCodeGo
  rw [if_neg (by omega)]
  dsimp only
  rw [if_neg (by simp only [List.isEmpty_iff]; exact hne)]
  rw [if_pos hshort]

theorem claim4_witness :
    searchCodeGo 30 100 [Attempt.success [(0 : Nat), 1, 2]] [] 1 [] =
      Outcome.ok [0, 1, 2] [1] :=
  (claim4_short_page_stops 30 100).1 [0, 1, 2] [] [] 1 []
    (by decide) (by decide) (by decide)

/-- C6 counterexample: a 403 whose response carries no
`X-RateLimit-Reset` header, answered while the fallback quota snapshot
is unavailable, is NOT recoverable: `_handle_rate_limit_error` raises
`RuntimeError` and the `search_code` call ends in a terminal error
instead of retrying the page. -/
theorem claim6_counterexample :
    search_code (α := Unit) [Attempt.forbidden none none 0] 30 200 =
      Outcome.runtimeError [1] := by
  decide

/-- C6 (amended): on an HTTP 403 the paginator sleeps
`max(10, resetAt − now + 1)` — taken from the response header when
present, else from the `search` entry of a freshly fetched quota
snapshot — and retries the same page number without advancing; but when
the header is absent and the snapshot is unavailable or lacks `search`,
the handler raises `RuntimeError` and the 403 is terminal for the query,
so a 403 without reset metadata is not always recoverable. -/
theorem claim6_forbidden_retry {α : Type} :
    (∀ (reset : Int) (snap : Option (List (String × Int))) (now : Int),
       handle_rate_limit_error (some reset) snap now =
         some (max 10 (reset - now + 1))) ∧
    (∀ (rs : List (String × Int)) (reset now : Int),
       rs.lookup "search" = some reset →
       handle_rate_limit_error none (some rs) now =
         some (max 10 (reset - now + 1))) ∧
    (∀ (P M : Nat) (hdr : Option Int) (snap : Option (List (String × Int)))
       (now w : Int) (rest : List (Attempt α)) (results : List α)
       (page : Nat) (reqs : List Nat),
       results.length < M →
       handle_rate_limit_error hdr snap now = some w →
       searchCodeGo P M (Attempt.forbidden hdr snap now :: rest)
           results page reqs =
         searchCodeGo P M rest results page (reqs ++ [page])) ∧
    (∀ (P M : Nat) (hdr : Option Int) (snap : Option (List (String × Int)))
       (now : Int) (rest : List (Attempt α)) (results : List α)
       (page : Nat) (reqs : List Nat),
       results.length < M →
       handle_rate_limit_error hdr snap now = none →
       searchCodeGo P M (Attempt.forbidden hdr snap now :: rest)
           results page reqs =
         Outcome.runtimeError (reqs ++ [page])) := by
  refine ⟨fun _ _ _ => rfl, ?_, ?_, ?_⟩
  · intro rs reset now h
    simp [handle_rate_limit_error, h]
  · intro P M hdr snap now w rest results page reqs hcap hh
    conv_lhs => unfold searchCodeGo
    rw [if_neg (by omega)]
    dsimp only
    rw [hh]
  · intro P M hdr snap now rest results page reqs hcap hh
    unfold searchCodeGo
    rw [if_neg (by omega)]
    dsimp only
    rw [hh]

theorem claim6_witness :
    searchCodeGo (α := Unit) 30 200
        [Attempt.forbidden (some 50) none 40, Attempt.success []] [] 1 [] =
      searchCodeGo 30 200 [Attempt.success []] [] 1 ([] ++ [1]) :=
  (claim6_forbidden_retry (α := Unit)).2.2.1 30 200 (some 50) none 40 11
    [Attempt.success []] [] 1 [] (by decide) (by decide)

/-- C7 counterexample: a transport failure on the very first page
request is NOT surfaced to the caller as a terminal error:
`search_code` swallows the exception, breaks out of the loop, and
returns normally with the (here empty) partial results. -/
theorem claim7_counterexample :
    search_code (α := Unit) [Attempt.transportError] 30 200 =
      Outcome.ok [] [1] := by
  decide

/-- C7 (amended): a transport failure during a page request aborts the
pagination sequence, and the call returns the partial results collected
so far normally — no error reaches the caller; by contrast any non-200,
non-403 HTTP status raises `RuntimeError`, a terminal error for the
current query. -/
theorem claim7_transport_and_protocol {α : Type} :
    (∀ (P M : Nat) (rest : List (Attempt α)) (results : List α)
       (page : Nat) (reqs : List Nat),
       results.length < M →
       searchCodeGo P M (Attempt.transportError :: rest) results page reqs =
         Outcome.ok results (reqs ++ [page])) ∧
    (∀ (P M status : Nat) (rest : List (Attempt α)) (results : List α)
       (page : Nat) (reqs : List Nat),
       results.length < M →
       searchCodeGo P M (Attempt.httpError status :: rest) results page reqs =
         Outcome.runtimeError (reqs ++ [page])) := by
  constructor
  · intro P M rest results page reqs hcap
    unfold searchCodeGo
    rw [if_neg (by omega)]
  · intro P M status rest results page reqs hcap
    unfold searchCodeGo
    rw [if_neg (by omega)]

theorem claim7_witness :
    searchCodeGo (α := Unit) 30 200 [Attempt.transportError] [] 1 [] =
      Outcome.ok [] ([] ++ [1]) :=
  claim7_transport_and_protocol.1 30 200 [] [] 1 [] (by decide)

end GitMiner
